import Mathlib

/-!
Shallow embedding of the NodeBasedLibraryMS fine engine and loan state
machine (backend/services/fineService.js and the issued-books routes),
together with proofs checking the natural-language specification against it.

Modelling conventions:
* Timestamps are integers counting milliseconds since the epoch
  (JavaScript `Date.getTime()`); `msPerDay = 1000 * 3600 * 24` as in the
  source's day arithmetic.
* Monetary values (`DECIMAL(10,2)` columns) are rationals.  Sequelize hands
  `DECIMAL` columns to JavaScript as non-null strings, so the source's
  truthiness test `fineConfig.max_fine_amount && ...` distinguishes NULL
  from a present value; we model the column as `Option Rat` and that guard
  as a match on the option.
* Each database table is an insertion-ordered list of records; `findOne` /
  `findByPk` is `List.find?`, an active-record `update` replaces the row the
  preceding `findOne` located (`updateFirst`), and `create` appends a row.
-/

namespace LibraryMS

/- Batteries marks the rational-number operations `@[irreducible]`, which
blocks `decide` on concrete fine amounts; restore reducibility locally. -/
attribute [local semireducible] Rat.mul Rat.add Rat.sub Rat.inv

/-- Milliseconds per day, `1000 * 3600 * 24` from the source. -/
def msPerDay : Int := 1000 * 3600 * 24

/-- Integer ceiling division (`Math.ceil(a / b)` for positive `b`). -/
def ceilDiv (a b : Int) : Int := (a + b - 1).ediv b

/-- `IssuedBook.status` enum: `issued`, `returned`, `overdue`, `lost`. -/
inductive LoanStatus
  | issued
  | returned
  | overdue
  | lost
deriving DecidableEq, Repr

/-- `Fine.status` enum: `pending`, `paid`, `waived`. -/
inductive FineStatus
  | pending
  | paid
  | waived
deriving DecidableEq, Repr

/-- A row of the `books` table (fields the loan logic touches). -/
structure Book where
  id : Nat
  total_copies : Int
  available_copies : Int
  is_active : Bool
deriving DecidableEq, Repr

/-- A row of the `students` table (fields the loan logic touches). -/
structure Student where
  id : Nat
  is_active : Bool
  max_books_allowed : Nat
deriving DecidableEq, Repr

/-- A row of the `issued_books` table. -/
structure IssuedBook where
  id : Nat
  student_id : Nat
  book_id : Nat
  librarian_id : Nat
  issue_date : Int
  due_date : Int
  return_date : Option Int
  fine_amount : Rat
  status : LoanStatus
  notes : Option String
deriving DecidableEq, Repr

/-- A row of the `fines` table. -/
structure Fine where
  id : Nat
  issued_book_id : Nat
  student_id : Nat
  amount : Rat
  days_overdue : Int
  fine_rate_per_day : Rat
  status : FineStatus
  paid_date : Option Int
  notes : Option String
  created_at : Int
deriving DecidableEq, Repr

/-- A row of the `fine_configs` table. -/
structure FineConfig where
  id : Nat
  fine_rate_per_day : Rat
  grace_period_days : Int
  max_fine_amount : Option Rat
  is_active : Bool
  created_at : Int
deriving DecidableEq, Repr

/-- The plain object `calculateFine` returns when a fine is due. -/
structure FineData where
  issued_book_id : Nat
  student_id : Nat
  amount : Rat
  days_overdue : Int
  fine_rate_per_day : Rat
deriving DecidableEq, Repr

/-- The persistent store: one list per table, plus auto-increment counters. -/
structure DB where
  books : List Book
  students : List Student
  issuedBooks : List IssuedBook
  fines : List Fine
  fineConfigs : List FineConfig
  nextLoanId : Nat
  nextFineId : Nat
deriving DecidableEq, Repr

/-- Replace the first element satisfying `p` (the row an active-record
`update` writes after the preceding `findOne` located it). -/
def updateFirst (p : α → Bool) (g : α → α) : List α → List α
  | [] => []
  | a :: as => if p a then g a :: as else a :: updateFirst p g as

/-- `IssuedBook.findByPk(id)`. -/
def findIssuedBook (db : DB) (id : Nat) : Option IssuedBook :=
  db.issuedBooks.find? fun ib => decide (ib.id = id)

/-- `Fine.findByPk(id)`. -/
def findFine (db : DB) (id : Nat) : Option Fine :=
  db.fines.find? fun f => decide (f.id = id)

/-- `FineConfig.findOne({where: {is_active: true}, order: [['created_at','DESC']]})`:
the first-listed active config of maximal `created_at`. -/
def resolveConfig (configs : List FineConfig) : Option FineConfig :=
  (configs.filter fun c => c.is_active).foldl
    (fun acc c =>
      match acc with
      | none => some c
      | some b => if b.created_at < c.created_at then some c else some b)
    none

/-- `fineConfig ? fineConfig.fine_rate_per_day : 5.00`. -/
def policyRate (cfg : Option FineConfig) : Rat :=
  match cfg with
  | some c => c.fine_rate_per_day
  | none => 5

/-- `fineConfig ? fineConfig.grace_period_days : 0`. -/
def policyGrace (cfg : Option FineConfig) : Int :=
  match cfg with
  | some c => c.grace_period_days
  | none => 0

/-- `if (fineConfig && fineConfig.max_fine_amount && amount > max) amount = max`. -/
def applyCap (cfg : Option FineConfig) (amount : Rat) : Rat :=
  match cfg with
  | some c =>
    match c.max_fine_amount with
    | some m => if m < amount then m else amount
    | none => amount
  | none => amount

/-- Body of `FineService.calculateFine` once the loan row has been fetched:
`today` is `new Date()` at the time of the call. -/
def calculateFineCore (issuedBookId : Nat) (ib? : Option IssuedBook)
    (configs : List FineConfig) (today : Int) : Option FineData :=
  match ib? with
  | none => none
  | some ib =>
    if ib.status = .returned then none
    else if today ≤ ib.due_date then none
    else
      let cfg := resolveConfig configs
      let fineRate := policyRate cfg
      let gracePeriod := policyGrace cfg
      let timeDiff := today - ib.due_date
      let daysOverdue := max 0 (ceilDiv timeDiff msPerDay - gracePeriod)
      if daysOverdue = 0 then none
      else
        some
          { issued_book_id := issuedBookId
            student_id := ib.student_id
            amount := applyCap cfg ((daysOverdue : Rat) * fineRate)
            days_overdue := daysOverdue
            fine_rate_per_day := fineRate }

/-- `FineService.calculateFine(issuedBookId)` evaluated when the clock reads
`today`. -/
def calculateFine (db : DB) (issuedBookId : Nat) (today : Int) : Option FineData :=
  calculateFineCore issuedBookId (findIssuedBook db issuedBookId) db.fineConfigs today

/-- One `{issued_book_id, action}` entry of the sweep's report. -/
inductive SweepAction
  | created
  | updated
deriving DecidableEq, Repr

/-- Report entry pushed by `generateFinesForOverdueBooks`. -/
structure SweepEntry where
  issued_book_id : Nat
  action : SweepAction
deriving DecidableEq, Repr

/-- Is this fine the loan's pending fine
(`Fine.findOne({where: {issued_book_id, status: 'pending'}})`)? -/
def isPendingFor (loanId : Nat) (f : Fine) : Bool :=
  decide (f.issued_book_id = loanId ∧ f.status = .pending)

/-- `existingFine.update(fineData)`: overwrite the data fields, keep
identity, status, timestamps. -/
def applyFineData (fd : FineData) (f : Fine) : Fine :=
  { f with
    issued_book_id := fd.issued_book_id
    student_id := fd.student_id
    amount := fd.amount
    days_overdue := fd.days_overdue
    fine_rate_per_day := fd.fine_rate_per_day }

/-- `Fine.create(fineData)`: a fresh row, status defaulting to `pending`. -/
def newFineFromData (id : Nat) (fd : FineData) (today : Int) : Fine :=
  { id := id
    issued_book_id := fd.issued_book_id
    student_id := fd.student_id
    amount := fd.amount
    days_overdue := fd.days_overdue
    fine_rate_per_day := fd.fine_rate_per_day
    status := .pending
    paid_date := none
    notes := none
    created_at := today }

/-- The sweep's upsert: update the loan's pending fine in place if one
exists, else create a new pending fine. -/
def upsertPendingFine (db : DB) (loanId : Nat) (fd : FineData) (today : Int) :
    DB × SweepAction :=
  match db.fines.find? (isPendingFor loanId) with
  | some _ =>
    ({ db with fines := updateFirst (isPendingFor loanId) (applyFineData fd) db.fines },
      .updated)
  | none =>
    ({ db with
        fines := db.fines ++ [newFineFromData db.nextFineId fd today]
        nextFineId := db.nextFineId + 1 },
      .created)

/-- `book.update({status: st})` on the loan row `findByPk(loanId)` found. -/
def setLoanStatus (db : DB) (loanId : Nat) (st : LoanStatus) : DB :=
  { db with
    issuedBooks :=
      updateFirst (fun ib => decide (ib.id = loanId))
        (fun ib => { ib with status := st }) db.issuedBooks }

/-- One iteration of the sweep's loop body for the loan `loanId`. -/
def processLoan (today : Int) (db : DB) (loanId : Nat) : DB × Option SweepEntry :=
  match calculateFine db loanId today with
  | none => (db, none)
  | some fd =>
    let (db1, act) := upsertPendingFine db loanId fd today
    (setLoanStatus db1 loanId .overdue, some ⟨loanId, act⟩)

/-- The sweep's `for (const book of overdueBooks)` loop over the selected
loan ids. -/
def sweepLoop (today : Int) (db : DB) : List Nat → DB × List SweepEntry
  | [] => (db, [])
  | id :: rest =>
    let (db1, e) := processLoan today db id
    let (db2, es) := sweepLoop today db1 rest
    (db2, e.toList ++ es)

/-- `IssuedBook.findAll({where: {status: 'issued', due_date: {[Op.lt]: new Date()}}})`,
projected to ids (the loop refetches each row by primary key). -/
def overdueSelection (db : DB) (today : Int) : List Nat :=
  (db.issuedBooks.filter fun ib =>
      decide (ib.status = .issued ∧ ib.due_date < today)).map (·.id)

/-- `FineService.generateFinesForOverdueBooks()` run when the clock reads
`today`. -/
def generateFinesForOverdueBooks (db : DB) (today : Int) : DB × List SweepEntry :=
  sweepLoop today db (overdueSelection db today)

/-- The sweep loop with an injected per-loan fault oracle.  The source loop
body has no `try`/`catch`, so a fault thrown while processing a loan
propagates out of `generateFinesForOverdueBooks` (the store mutations of the
loans already processed persist, but no report is returned). -/
def sweepLoopF (today : Int) (db : DB) (fault : Nat → Bool) :
    List Nat → Except String (DB × List SweepEntry)
  | [] => .ok (db, [])
  | id :: rest =>
    if fault id then .error ("fault processing issued book " ++ toString id)
    else
      let (db1, e) := processLoan today db id
      match sweepLoopF today db1 fault rest with
      | .ok (db2, es) => .ok (db2, e.toList ++ es)
      | .error msg => .error msg

/-- `generateFinesForOverdueBooks()` under the fault oracle `fault`. -/
def generateFinesForOverdueBooksF (db : DB) (today : Int) (fault : Nat → Bool) :
    Except String (DB × List SweepEntry) :=
  sweepLoopF today db fault (overdueSelection db today)

/-- `FineService.payFine(fineId, paidDate)`. -/
def payFine (db : DB) (fineId : Nat) (paidDate : Int) : Except String DB :=
  match findFine db fineId with
  | none => .error "Fine not found"
  | some f =>
    if f.status = .paid then .error "Fine already paid"
    else
      .ok { db with
        fines :=
          updateFirst (fun g => decide (g.id = fineId))
            (fun g => { g with status := .paid, paid_date := some paidDate }) db.fines }

/-- `FineService.waiveFine(fineId, notes)`. -/
def waiveFine (db : DB) (fineId : Nat) (notes : String) : Except String DB :=
  match findFine db fineId with
  | none => .error "Fine not found"
  | some f =>
    if f.status = .paid then .error "Cannot waive paid fine"
    else
      .ok { db with
        fines :=
          updateFirst (fun g => decide (g.id = fineId))
            (fun g => { g with status := .waived, notes := some notes }) db.fines }

/-- Descending insertion by `created_at` (models `order: [['created_at','DESC']]`). -/
def insertFineByCreated (f : Fine) : List Fine → List Fine
  | [] => [f]
  | g :: gs =>
    if g.created_at < f.created_at then f :: g :: gs else g :: insertFineByCreated f gs

/-- Sort a fine list by `created_at` descending. -/
def sortFinesByCreatedDesc : List Fine → List Fine
  | [] => []
  | f :: fs => insertFineByCreated f (sortFinesByCreatedDesc fs)

/-- `FineService.getStudentFines(studentId, status = 'pending')`: a `none`
argument is JavaScript `undefined`, so the default parameter applies. -/
def getStudentFines (db : DB) (studentId : Nat) (status : Option FineStatus) :
    List Fine :=
  let st := status.getD .pending
  sortFinesByCreatedDesc
    (db.fines.filter fun f => decide (f.student_id = studentId ∧ f.status = st))

/-- `GET /api/fines/student/:studentId`: forwards `req.query.status`
(`none` when the query string has no `status`) to `getStudentFines`. -/
def getStudentFinesRoute (db : DB) (studentId : Nat)
    (statusQuery : Option FineStatus) : List Fine :=
  getStudentFines db studentId statusQuery

/-- Error taxonomy of `PUT /api/issued-books/:id/return`. -/
inductive ReturnError
  | notFound
  | alreadyReturned
deriving DecidableEq, Repr

/-- JavaScript `a || b` on optional strings (`'' `is falsy). -/
def jsOrString (a b : Option String) : Option String :=
  match a with
  | some s => if s = "" then b else some s
  | none => b

/-- The return route's fine block: `Fine.findOne({where: {issued_book_id}})`
(no status filter), then update `{amount, days_overdue, status: 'pending'}`
in place, else `Fine.create(fineData)`.  Returns the new store and the
`fineAmount` recorded on the loan. -/
def returnFineUpsert (db : DB) (loanId : Nat) (fd : FineData) (today : Int) :
    DB × Rat :=
  match db.fines.find? (fun f => decide (f.issued_book_id = loanId)) with
  | some _ =>
    ({ db with
        fines :=
          updateFirst (fun f => decide (f.issued_book_id = loanId))
            (fun f =>
              { f with amount := fd.amount, days_overdue := fd.days_overdue,
                       status := .pending }) db.fines },
      fd.amount)
  | none =>
    ({ db with
        fines := db.fines ++ [newFineFromData db.nextFineId fd today]
        nextFineId := db.nextFineId + 1 },
      fd.amount)

/-- `Book.increment('available_copies', {where: {id: bookId}})`. -/
def incrementAvailable (db : DB) (bookId : Nat) : DB :=
  { db with
    books := db.books.map fun b =>
      if b.id = bookId then { b with available_copies := b.available_copies + 1 } else b }

/-- `PUT /api/issued-books/:id/return` (part_012): `return_date` is the
optional request-body date, `today` is `new Date()` while the request runs.
Note the fine, when computed, is computed by `calculateFine`, which
evaluates at `today`; `returnDate` only gates whether it is computed. -/
def returnBook (db : DB) (loanId : Nat) (return_date : Option Int)
    (notes : Option String) (today : Int) : Except ReturnError DB :=
  match findIssuedBook db loanId with
  | none => .error .notFound
  | some ib =>
    if ib.status = .returned then .error .alreadyReturned
    else
      let returnDate := return_date.getD today
      let upd :=
        if ib.due_date < returnDate then
          match calculateFine db loanId today with
          | some fd => returnFineUpsert db loanId fd today
          | none => (db, 0)
        else (db, 0)
      let db1 := upd.1
      let fineAmount := upd.2
      let db2 :=
        { db1 with
          issuedBooks :=
            updateFirst (fun b => decide (b.id = loanId))
              (fun b =>
                { b with
                  return_date := some returnDate
                  status := .returned
                  fine_amount := fineAmount
                  notes := jsOrString notes b.notes }) db1.issuedBooks }
      .ok (incrementAvailable db2 ib.book_id)

/-- Error taxonomy of `POST /api/issued-books/issue`. -/
inductive IssueError
  | studentNotFound
  | bookNotFound
  | bookUnavailable
  | duplicateLoan
  | limitExceeded
deriving DecidableEq, Repr

/-- `Student.findOne({where: {id, is_active: true}})`. -/
def findStudentActive (db : DB) (studentId : Nat) : Option Student :=
  db.students.find? fun s => decide (s.id = studentId ∧ s.is_active = true)

/-- `Book.findOne({where: {id, is_active: true}})`. -/
def findBookActive (db : DB) (bookId : Nat) : Option Book :=
  db.books.find? fun b => decide (b.id = bookId ∧ b.is_active = true)

/-- `POST /api/issued-books/issue` (part_012).  The duplicate check and the
active-loan count both filter on `status: 'issued'` only. -/
def issueBook (db : DB) (student_id book_id : Nat) (due_date : Int)
    (librarian_id : Nat) (notes : Option String) (today : Int) :
    Except IssueError DB :=
  match findStudentActive db student_id with
  | none => .error .studentNotFound
  | some student =>
    match findBookActive db book_id with
    | none => .error .bookNotFound
    | some book =>
      if book.available_copies ≤ 0 then .error .bookUnavailable
      else if (db.issuedBooks.find? fun ib =>
          decide (ib.student_id = student_id ∧ ib.book_id = book_id ∧
            ib.status = .issued)).isSome then
        .error .duplicateLoan
      else if student.max_books_allowed ≤
          (db.issuedBooks.filter fun ib =>
            decide (ib.student_id = student_id ∧ ib.status = .issued)).length then
        .error .limitExceeded
      else
        let loan : IssuedBook :=
          { id := db.nextLoanId
            student_id := student_id
            book_id := book_id
            librarian_id := librarian_id
            issue_date := today
            due_date := due_date
            return_date := none
            fine_amount := 0
            status := .issued
            notes := notes }
        .ok { db with
          issuedBooks := db.issuedBooks ++ [loan]
          nextLoanId := db.nextLoanId + 1
          books :=
            updateFirst (fun b => decide (b.id = book_id))
              (fun b => { b with available_copies := book.available_copies - 1 })
              db.books }

/-- All fine rows referencing the loan. -/
def finesFor (db : DB) (loanId : Nat) : List Fine :=
  db.fines.filter fun f => decide (f.issued_book_id = loanId)

/-- The loan's pending fine rows. -/
def pendingFinesFor (db : DB) (loanId : Nat) : List Fine :=
  db.fines.filter (isPendingFor loanId)

/-- Total amount across the whole fine ledger. -/
def totalFineAmount (db : DB) : Rat :=
  (db.fines.map (·.amount)).sum

/-- Primary keys of the loan table are pairwise distinct. -/
@[reducible] def LoanIdsNodup (db : DB) : Prop :=
  (db.issuedBooks.map (·.id)).Nodup

/-- The fine computation exactly as the specification words it (for the
refinement claim): resolve the current policy as the most recently created
active record with fallback `rate=5.00/day, grace=0, no cap`; then
`rawDays = ceil((evaluationDate - due_date) in days)`,
`daysOverdue = max(0, rawDays - grace_period_days)`, no fine when that is 0,
otherwise `amount = daysOverdue * rate_per_day`, capped at `max_fine_amount`
when the cap is set and exceeded, with a snapshot of the rate. -/
def calculateFineSpec (issuedBookId : Nat) (ib : IssuedBook)
    (configs : List FineConfig) (today : Int) : Option FineData :=
  let policy := resolveConfig configs
  let rate : Rat :=
    match policy with
    | some c => c.fine_rate_per_day
    | none => 5
  let grace : Int :=
    match policy with
    | some c => c.grace_period_days
    | none => 0
  let cap : Option Rat :=
    match policy with
    | some c => c.max_fine_amount
    | none => none
  let rawDays := ceilDiv (today - ib.due_date) msPerDay
  let daysOverdue := max 0 (rawDays - grace)
  if daysOverdue = 0 then none
  else
    let amount := (daysOverdue : Rat) * rate
    some
      { issued_book_id := issuedBookId
        student_id := ib.student_id
        amount :=
          match cap with
          | some m => if m < amount then m else amount
          | none => amount
        days_overdue := daysOverdue
        fine_rate_per_day := rate }

/-! ### Concrete stores used by witnesses and counterexamples -/

/-- `n` whole days, in milliseconds. -/
def day (n : Int) : Int := n * msPerDay

/-- A student: id 42, active, limit 3 books. -/
def exStudent : Student := ⟨42, true, 3⟩

/-- A book: id 7, 5 copies, 2 available, active. -/
def exBook : Book := ⟨7, 5, 2, true⟩

/-- A loan row due at day `d` with status `st`. -/
def mkLoan (id : Nat) (d : Int) (st : LoanStatus) : IssuedBook :=
  { id := id
    student_id := 42
    book_id := 7
    librarian_id := 1
    issue_date := 0
    due_date := d
    return_date := none
    fine_amount := 0
    status := st
    notes := none }

/-- Newer active policy: rate 3/day, grace 1 day, cap 100. -/
def exCfgNew : FineConfig := ⟨1, 3, 1, some 100, true, day 5⟩

/-- Older active policy (must lose to `exCfgNew` on recency). -/
def exCfgOld : FineConfig := ⟨2, 9, 0, none, true, day 2⟩

/-- Store for the C1 witness: one issued loan due day 10, two active
policies of different ages. -/
def exDBC1 : DB :=
  ⟨[exBook], [exStudent], [mkLoan 1 (day 10) .issued], [], [exCfgNew, exCfgOld], 2, 1⟩

/-- Store for the C2 counterexample and C4 witness: one issued loan due at
day 0, no policy rows (defaults apply). -/
def exDBC2 : DB :=
  ⟨[exBook], [exStudent], [mkLoan 1 (day 0) .issued], [], [], 2, 1⟩

/-- Active policy with a 3-day grace period. -/
def exCfgGrace : FineConfig := ⟨1, 5, 3, none, true, day 0⟩

/-- Store for the C3 counterexample: issued loan due day 0 under a 3-day
grace policy. -/
def exDBC3 : DB :=
  ⟨[exBook], [exStudent], [mkLoan 1 (day 0) .issued], [], [exCfgGrace], 2, 1⟩

/-- Store for the C5 counterexample: two issued loans, both due day 0. -/
def exDBC5 : DB :=
  ⟨[exBook], [exStudent], [mkLoan 1 (day 0) .issued, mkLoan 2 (day 0) .issued],
    [], [], 3, 1⟩

/-- Fault oracle failing exactly on loan 1. -/
def exFaultC5 : Nat → Bool := fun n => decide (n = 1)

/-- A waived fine on loan 1. -/
def exWaivedFine : Fine :=
  ⟨1, 1, 42, 15, 3, 5, .waived, none, some "hardship", day 1⟩

/-- A paid fine on loan 1. -/
def exPaidFine : Fine :=
  ⟨1, 1, 42, 15, 3, 5, .paid, some (day 2), none, day 1⟩

/-- Store for the C6 counterexample: one waived fine. -/
def exDBC6 : DB :=
  ⟨[exBook], [exStudent], [mkLoan 1 (day 0) .overdue], [exWaivedFine], [], 2, 2⟩

/-- Store for the C6 witness: one paid fine. -/
def exDBC6P : DB :=
  ⟨[exBook], [exStudent], [mkLoan 1 (day 0) .overdue], [exPaidFine], [], 2, 2⟩

/-- Store for C7: loan due 2024-01-10 (epoch day 19732), no policy rows, so
the default rate 5/day, grace 0, no cap applies. -/
def exDBC7 : DB :=
  ⟨[exBook], [exStudent], [mkLoan 1 (day 19732) .issued], [], [], 2, 1⟩

/-- Store for the C8 counterexample: student 42 already holds loan 1 on
book 7 in status `overdue`. -/
def exDBC8 : DB :=
  ⟨[exBook], [exStudent], [mkLoan 1 (day 0) .overdue], [], [], 2, 1⟩

/-- Store for the C8 witness: the existing loan on book 7 has status
`issued`, so re-issuing must be rejected as a duplicate. -/
def exDBC8W : DB :=
  ⟨[exBook], [exStudent], [mkLoan 1 (day 0) .issued], [], [], 2, 1⟩

/-- Store for the C9 witness: issued loan due day 10, no policy rows. -/
def exDBC9 : DB :=
  ⟨[exBook], [exStudent], [mkLoan 1 (day 10) .issued], [], [], 2, 1⟩

/-! ### Generic lemmas about `updateFirst`, `find?` and `filter` -/

theorem find?_updateFirst_same {α : Type} (p : α → Bool) (g : α → α)
    (hg : ∀ a, p a = true → p (g a) = true) (l : List α) :
    (updateFirst p g l).find? p = (l.find? p).map g := by
  induction l with
  | nil => rfl
  | cons a as ih =>
    by_cases h : p a = true
    · simp [updateFirst, h, List.find?_cons_of_pos, hg a h]
    · simp only [Bool.not_eq_true] at h
      simp [updateFirst, h, List.find?_cons_of_neg, ih]

theorem find?_updateFirst_disjoint {α : Type} (p q : α → Bool) (g : α → α)
    (h : ∀ a, p a = true → q a = false ∧ q (g a) = false) (l : List α) :
    (updateFirst p g l).find? q = l.find? q := by
  induction l with
  | nil => rfl
  | cons a as ih =>
    by_cases hp : p a = true
    · obtain ⟨h1, h2⟩ := h a hp
      simp [updateFirst, hp, List.find?_cons_of_neg, h1, h2]
    · simp only [Bool.not_eq_true] at hp
      by_cases hq : q a = true
      · simp [updateFirst, hp, List.find?_cons_of_pos, hq]
      · simp only [Bool.not_eq_true] at hq
        simp [updateFirst, hp, List.find?_cons_of_neg, hq, ih]

theorem filter_updateFirst_disjoint {α : Type} (p q : α → Bool) (g : α → α)
    (h : ∀ a, p a = true → q a = false ∧ q (g a) = false) (l : List α) :
    (updateFirst p g l).filter q = l.filter q := by
  induction l with
  | nil => rfl
  | cons a as ih =>
    by_cases hp : p a = true
    · obtain ⟨h1, h2⟩ := h a hp
      simp [updateFirst, hp, List.filter_cons, h1, h2]
    · simp only [Bool.not_eq_true] at hp
      simp [updateFirst, hp, List.filter_cons, ih]

theorem filter_updateFirst_stable {α : Type} (p : α → Bool) (g : α → α)
    (hg : ∀ a, p a = true → p (g a) = true) (l : List α) :
    ((updateFirst p g l).filter p).length = (l.filter p).length := by
  induction l with
  | nil => rfl
  | cons a as ih =>
    by_cases h : p a = true
    · simp [updateFirst, h, List.filter_cons, hg a h]
    · simp only [Bool.not_eq_true] at h
      simp [updateFirst, h, List.filter_cons, ih]

theorem map_updateFirst_invariant {α β : Type} (p : α → Bool) (g : α → α)
    (f : α → β) (hf : ∀ a, f (g a) = f a) (l : List α) :
    (updateFirst p g l).map f = l.map f := by
  induction l with
  | nil => rfl
  | cons a as ih =>
    by_cases h : p a = true
    · simp [updateFirst, h, hf]
    · simp only [Bool.not_eq_true] at h
      simp [updateFirst, h, ih]

theorem filter_eq_nil_of_find?_eq_none {α : Type} {p : α → Bool} {l : List α}
    (h : l.find? p = none) : l.filter p = [] := by
  rw [List.find?_eq_none] at h
  rw [List.filter_eq_nil_iff]
  exact h

theorem find?_eq_of_nodup_map {α β : Type} [DecidableEq β] {f : α → β}
    {l : List α} (hnd : (l.map f).Nodup) {a : α} (ha : a ∈ l) :
    l.find? (fun b => decide (f b = f a)) = some a := by
  induction l with
  | nil => cases ha
  | cons b bs ih =>
    simp only [List.map_cons, List.nodup_cons, List.mem_map] at hnd
    rcases List.mem_cons.mp ha with rfl | hmem
    · simp [List.find?_cons_of_pos]
    · have hne : f b ≠ f a := by
        intro he
        exact hnd.1 ⟨a, hmem, he.symm⟩
      have : (fun c => decide (f c = f a)) b = false := by
        simp [hne]
      rw [List.find?_cons_of_neg _ (by simp [this, hne]), ih hnd.2 hmem]

/-! ### Lemmas about the fine computation and one sweep step -/

theorem calculateFineCore_issued_book_id {id : Nat} {ib? : Option IssuedBook}
    {configs : List FineConfig} {today : Int} {fd : FineData}
    (h : calculateFineCore id ib? configs today = some fd) :
    fd.issued_book_id = id := by
  unfold calculateFineCore at h
  cases ib? with
  | none => cases h
  | some ib =>
    simp only [] at h
    split at h
    · cases h
    · split at h
      · cases h
      · split at h
        · cases h
        · cases h
          rfl

theorem calculateFine_issued_book_id {db : DB} {id : Nat} {today : Int}
    {fd : FineData} (h : calculateFine db id today = some fd) :
    fd.issued_book_id = id :=
  calculateFineCore_issued_book_id h

theorem calculateFine_congr {db1 db2 : DB} {id : Nat} (today : Int)
    (h1 : findIssuedBook db1 id = findIssuedBook db2 id)
    (h2 : db1.fineConfigs = db2.fineConfigs) :
    calculateFine db1 id today = calculateFine db2 id today := by
  unfold calculateFine
  rw [h1, h2]

theorem upsertPendingFine_issuedBooks (db : DB) (id : Nat) (fd : FineData)
    (t : Int) : ((upsertPendingFine db id fd t).1).issuedBooks = db.issuedBooks := by
  unfold upsertPendingFine
  cases db.fines.find? (isPendingFor id) <;> rfl

theorem upsertPendingFine_fineConfigs (db : DB) (id : Nat) (fd : FineData)
    (t : Int) : ((upsertPendingFine db id fd t).1).fineConfigs = db.fineConfigs := by
  unfold upsertPendingFine
  cases db.fines.find? (isPendingFor id) <;> rfl

theorem upsertPendingFine_finesFor_other {db : DB} {id id' : Nat} {fd : FineData}
    {t : Int} (hfd : fd.issued_book_id = id) (hne : id' ≠ id) :
    finesFor (upsertPendingFine db id fd t).1 id' = finesFor db id' := by
  unfold upsertPendingFine finesFor
  cases hf : db.fines.find? (isPendingFor id) with
  | none =>
    simp only [List.filter_append]
    have : (decide ((newFineFromData db.nextFineId fd t).issued_book_id = id')) = false := by
      simp [newFineFromData, hfd, Ne.symm hne]
    simp [this]
  | some f =>
    simp only []
    apply filter_updateFirst_disjoint
    intro a ha
    unfold isPendingFor at ha
    rw [decide_eq_true_eq] at ha
    constructor
    · simp [ha.1, Ne.symm hne]
    · simp [applyFineData, hfd, Ne.symm hne]

theorem upsertPendingFine_pendingFinesFor_other {db : DB} {id id' : Nat}
    {fd : FineData} {t : Int} (hfd : fd.issued_book_id = id) (hne : id' ≠ id) :
    pendingFinesFor (upsertPendingFine db id fd t).1 id' = pendingFinesFor db id' := by
  unfold upsertPendingFine pendingFinesFor
  cases hf : db.fines.find? (isPendingFor id) with
  | none =>
    simp only [List.filter_append]
    have : isPendingFor id' (newFineFromData db.nextFineId fd t) = false := by
      simp [newFineFromData, isPendingFor, hfd, Ne.symm hne]
    simp [this]
  | some f =>
    simp only []
    apply filter_updateFirst_disjoint
    intro a ha
    unfold isPendingFor at ha
    rw [decide_eq_true_eq] at ha
    constructor
    · simp [isPendingFor, ha.1, Ne.symm hne]
    · simp [isPendingFor, applyFineData, hfd, Ne.symm hne]

theorem setLoanStatus_fines (db : DB) (id : Nat) (st : LoanStatus) :
    (setLoanStatus db id st).fines = db.fines := rfl

theorem setLoanStatus_fineConfigs (db : DB) (id : Nat) (st : LoanStatus) :
    (setLoanStatus db id st).fineConfigs = db.fineConfigs := rfl

theorem findIssuedBook_setLoanStatus_same (db : DB) (id : Nat) (st : LoanStatus) :
    findIssuedBook (setLoanStatus db id st) id =
      (findIssuedBook db id).map (fun ib => { ib with status := st }) := by
  unfold findIssuedBook setLoanStatus
  dsimp only
  exact find?_updateFirst_same (fun ib => decide (ib.id = id))
    (fun ib => { ib with status := st }) (fun a ha => ha) db.issuedBooks

theorem findIssuedBook_setLoanStatus_other {db : DB} {id id' : Nat}
    {st : LoanStatus} (hne : id' ≠ id) :
    findIssuedBook (setLoanStatus db id st) id' = findIssuedBook db id' := by
  unfold findIssuedBook setLoanStatus
  apply find?_updateFirst_disjoint
  intro a ha
  rw [decide_eq_true_eq] at ha
  constructor <;> simp [ha, Ne.symm hne]

theorem setLoanStatus_map_ids (db : DB) (id : Nat) (st : LoanStatus) :
    ((setLoanStatus db id st).issuedBooks.map (·.id)) =
      db.issuedBooks.map (·.id) := by
  unfold setLoanStatus
  dsimp only
  exact map_updateFirst_invariant (fun ib => decide (ib.id = id))
    (fun ib => { ib with status := st }) (fun x => x.id) (fun a => rfl) db.issuedBooks

theorem processLoan_of_calc_none {today : Int} {db : DB} {id : Nat}
    (h : calculateFine db id today = none) : processLoan today db id = (db, none) := by
  unfold processLoan
  rw [h]

theorem processLoan_fineConfigs (today : Int) (db : DB) (id : Nat) :
    ((processLoan today db id).1).fineConfigs = db.fineConfigs := by
  unfold processLoan
  cases h : calculateFine db id today with
  | none => rfl
  | some fd =>
    dsimp only
    rw [setLoanStatus_fineConfigs, upsertPendingFine_fineConfigs]

theorem processLoan_map_ids (today : Int) (db : DB) (id : Nat) :
    ((processLoan today db id).1).issuedBooks.map (·.id) =
      db.issuedBooks.map (·.id) := by
  unfold processLoan
  cases h : calculateFine db id today with
  | none => rfl
  | some fd =>
    dsimp only
    rw [setLoanStatus_map_ids]
    rw [upsertPendingFine_issuedBooks]

theorem processLoan_findIssuedBook_other {today : Int} {db : DB} {id id' : Nat}
    (hne : id' ≠ id) :
    findIssuedBook (processLoan today db id).1 id' = findIssuedBook db id' := by
  unfold processLoan
  cases h : calculateFine db id today with
  | none => rfl
  | some fd =>
    dsimp only
    rw [findIssuedBook_setLoanStatus_other hne]
    unfold findIssuedBook
    rw [upsertPendingFine_issuedBooks]

theorem processLoan_finesFor_other {today : Int} {db : DB} {id id' : Nat}
    (hne : id' ≠ id) :
    finesFor (processLoan today db id).1 id' = finesFor db id' := by
  unfold processLoan
  cases h : calculateFine db id today with
  | none => rfl
  | some fd =>
    dsimp only
    have h1 : finesFor (setLoanStatus (upsertPendingFine db id fd today).1 id .overdue) id' =
        finesFor (upsertPendingFine db id fd today).1 id' := by
      unfold finesFor
      rw [setLoanStatus_fines]
    rw [h1, upsertPendingFine_finesFor_other (calculateFine_issued_book_id h) hne]

theorem processLoan_pendingFinesFor_other {today : Int} {db : DB} {id id' : Nat}
    (hne : id' ≠ id) :
    pendingFinesFor (processLoan today db id).1 id' = pendingFinesFor db id' := by
  unfold processLoan
  cases h : calculateFine db id today with
  | none => rfl
  | some fd =>
    dsimp only
    have h1 : pendingFinesFor (setLoanStatus (upsertPendingFine db id fd today).1 id .overdue) id' =
        pendingFinesFor (upsertPendingFine db id fd today).1 id' := by
      unfold pendingFinesFor
      rw [setLoanStatus_fines]
    rw [h1, upsertPendingFine_pendingFinesFor_other (calculateFine_issued_book_id h) hne]

theorem processLoan_findIssuedBook_self {today : Int} {db : DB} {id : Nat}
    {fd : FineData} (h : calculateFine db id today = some fd) :
    findIssuedBook (processLoan today db id).1 id =
      (findIssuedBook db id).map (fun ib => { ib with status := .overdue }) := by
  unfold processLoan
  rw [h]
  dsimp only
  rw [findIssuedBook_setLoanStatus_same]
  unfold findIssuedBook
  rw [upsertPendingFine_issuedBooks]

theorem sweepLoop_fineConfigs (today : Int) (db : DB) (ids : List Nat) :
    ((sweepLoop today db ids).1).fineConfigs = db.fineConfigs := by
  induction ids generalizing db with
  | nil => rfl
  | cons id rest ih =>
    unfold sweepLoop
    dsimp only
    rw [ih, processLoan_fineConfigs]

theorem sweepLoop_map_ids (today : Int) (db : DB) (ids : List Nat) :
    ((sweepLoop today db ids).1).issuedBooks.map (·.id) =
      db.issuedBooks.map (·.id) := by
  induction ids generalizing db with
  | nil => rfl
  | cons id rest ih =>
    unfold sweepLoop
    dsimp only
    rw [ih, processLoan_map_ids]

theorem sweepLoop_findIssuedBook_not_mem {today : Int} {db : DB} {ids : List Nat}
    {id : Nat} (h : id ∉ ids) :
    findIssuedBook (sweepLoop today db ids).1 id = findIssuedBook db id := by
  induction ids generalizing db with
  | nil => rfl
  | cons pid rest ih =>
    have hne : id ≠ pid := fun he => h (he ▸ List.mem_cons_self pid rest)
    have hrest : id ∉ rest := fun hm => h (List.mem_cons_of_mem pid hm)
    unfold sweepLoop
    dsimp only
    rw [ih hrest, processLoan_findIssuedBook_other hne]

theorem sweepLoop_finesFor_not_mem {today : Int} {db : DB} {ids : List Nat}
    {id : Nat} (h : id ∉ ids) :
    finesFor (sweepLoop today db ids).1 id = finesFor db id := by
  induction ids generalizing db with
  | nil => rfl
  | cons pid rest ih =>
    have hne : id ≠ pid := fun he => h (he ▸ List.mem_cons_self pid rest)
    have hrest : id ∉ rest := fun hm => h (List.mem_cons_of_mem pid hm)
    unfold sweepLoop
    dsimp only
    rw [ih hrest, processLoan_finesFor_other hne]

theorem sweepLoop_pendingFinesFor_not_mem {today : Int} {db : DB} {ids : List Nat}
    {id : Nat} (h : id ∉ ids) :
    pendingFinesFor (sweepLoop today db ids).1 id = pendingFinesFor db id := by
  induction ids generalizing db with
  | nil => rfl
  | cons pid rest ih =>
    have hne : id ≠ pid := fun he => h (he ▸ List.mem_cons_self pid rest)
    have hrest : id ∉ rest := fun hm => h (List.mem_cons_of_mem pid hm)
    unfold sweepLoop
    dsimp only
    rw [ih hrest, processLoan_pendingFinesFor_other hne]

theorem sweepLoop_cons (today : Int) (db : DB) (id : Nat) (rest : List Nat) :
    sweepLoop today db (id :: rest) =
      ((sweepLoop today (processLoan today db id).1 rest).1,
        (processLoan today db id).2.toList ++
          (sweepLoop today (processLoan today db id).1 rest).2) := rfl

theorem sweepLoop_append (today : Int) (db : DB) (l1 l2 : List Nat) :
    sweepLoop today db (l1 ++ l2) =
      ((sweepLoop today (sweepLoop today db l1).1 l2).1,
        (sweepLoop today db l1).2 ++ (sweepLoop today (sweepLoop today db l1).1 l2).2) := by
  induction l1 generalizing db with
  | nil => simp [sweepLoop]
  | cons id rest ih =>
    rw [List.cons_append, sweepLoop_cons, ih, sweepLoop_cons]
    dsimp only
    rw [List.append_assoc]

theorem sweepLoop_noop {today : Int} {db : DB} {ids : List Nat}
    (h : ∀ id ∈ ids, calculateFine db id today = none) :
    sweepLoop today db ids = (db, []) := by
  induction ids with
  | nil => rfl
  | cons id rest ih =>
    unfold sweepLoop
    rw [processLoan_of_calc_none (h id (List.mem_cons_self id rest))]
    dsimp only
    rw [ih fun i hi => h i (List.mem_cons_of_mem id hi)]
    rfl

theorem sweepLoop_establishes (today : Int) (db : DB) (ids : List Nat)
    (hinit : ∀ id ib, findIssuedBook db id = some ib → ib.status = .issued →
      ib.due_date < today →
      id ∈ ids ∨ calculateFineCore id (some ib) db.fineConfigs today = none) :
    ∀ id ib, findIssuedBook (sweepLoop today db ids).1 id = some ib →
      ib.status = .issued → ib.due_date < today →
      calculateFineCore id (some ib) (sweepLoop today db ids).1.fineConfigs today = none := by
  induction ids generalizing db with
  | nil =>
    intro id ib hfind hst hdue
    rcases hinit id ib hfind hst hdue with h | h
    · cases h
    · exact h
  | cons pid rest ih =>
    intro id ib hfind hst hdue
    unfold sweepLoop at hfind ⊢
    dsimp only at hfind ⊢
    apply ih (processLoan today db pid).1 _ id ib hfind hst hdue
    intro id' ib' hfind' hst' hdue'
    rw [processLoan_fineConfigs]
    by_cases hne : id' = pid
    · subst hne
      cases hc : calculateFine db id' today with
      | none =>
        rw [processLoan_of_calc_none hc] at hfind'
        right
        unfold calculateFine at hc
        rw [hfind'] at hc
        exact hc
      | some fd =>
        rw [processLoan_findIssuedBook_self hc] at hfind'
        cases hfe : findIssuedBook db id' with
        | none => rw [hfe] at hfind'; cases hfind'
        | some ib0 =>
          rw [hfe] at hfind'
          simp only [Option.map_some'] at hfind'
          cases hfind'
          cases hst'
    · rw [processLoan_findIssuedBook_other hne] at hfind'
      rcases hinit id' ib' hfind' hst' hdue' with hmem | hnone
      · rcases List.mem_cons.mp hmem with he | hr
        · exact absurd he hne
        · exact Or.inl hr
      · exact Or.inr hnone

theorem findIssuedBook_mem {db : DB} {id : Nat} {ib : IssuedBook}
    (h : findIssuedBook db id = some ib) : ib ∈ db.issuedBooks ∧ ib.id = id := by
  unfold findIssuedBook at h
  refine ⟨List.mem_of_find?_eq_some h, ?_⟩
  have := List.find?_some h
  simpa using this

theorem findIssuedBook_nodup {db : DB} (hnd : LoanIdsNodup db) {ib : IssuedBook}
    (hib : ib ∈ db.issuedBooks) : findIssuedBook db ib.id = some ib := by
  unfold findIssuedBook
  exact find?_eq_of_nodup_map hnd hib

theorem mem_overdueSelection {db : DB} {today : Int} {id : Nat} :
    id ∈ overdueSelection db today ↔
      ∃ ib, ib ∈ db.issuedBooks ∧ ib.id = id ∧ ib.status = .issued ∧
        ib.due_date < today := by
  unfold overdueSelection
  simp only [List.mem_map, List.mem_filter, decide_eq_true_eq]
  constructor
  · rintro ⟨ib, ⟨hmem, hst, hdue⟩, rfl⟩
    exact ⟨ib, hmem, rfl, hst, hdue⟩
  · rintro ⟨ib, hmem, rfl, hst, hdue⟩
    exact ⟨ib, ⟨hmem, hst, hdue⟩, rfl⟩

theorem overdueSelection_nodup {db : DB} (hnd : LoanIdsNodup db) (today : Int) :
    (overdueSelection db today).Nodup := by
  unfold overdueSelection
  exact hnd.sublist ((List.filter_sublist db.issuedBooks).map (·.id))

theorem sweep_nodup {db : DB} (hnd : LoanIdsNodup db) (d : Int) :
    LoanIdsNodup (generateFinesForOverdueBooks db d).1 := by
  unfold LoanIdsNodup generateFinesForOverdueBooks at *
  rw [sweepLoop_map_ids]
  exact hnd

theorem not_mem_overdueSelection_of_status {db : DB} {d : Int} {id : Nat}
    {ib : IssuedBook} (hnd : LoanIdsNodup db) (hfind : findIssuedBook db id = some ib)
    (hst : ib.status ≠ .issued) : id ∉ overdueSelection db d := by
  intro hmem
  obtain ⟨r, hrmem, hrid, hrst, _⟩ := mem_overdueSelection.mp hmem
  have hr := findIssuedBook_nodup hnd hrmem
  rw [hrid, hfind] at hr
  cases hr
  exact hst hrst

/-- Claim C4: running `generateFinesForOverdueBooks()` twice in succession on
the same overdue set is idempotent — the second call is a no-op (it returns an
empty report and leaves the store, in particular the fine ledger, unchanged),
so no duplicate pending fine rows appear and the total fine amount does not
change after the second call. -/
theorem sweep_idempotent (db : DB) (d : Int) (hnd : LoanIdsNodup db) :
    generateFinesForOverdueBooks (generateFinesForOverdueBooks db d).1 d =
      ((generateFinesForOverdueBooks db d).1, []) ∧
    totalFineAmount (generateFinesForOverdueBooks (generateFinesForOverdueBooks db d).1 d).1 =
      totalFineAmount (generateFinesForOverdueBooks db d).1 := by
  have hnd1 : LoanIdsNodup (generateFinesForOverdueBooks db d).1 := sweep_nodup hnd d
  have hinv : ∀ id ib,
      findIssuedBook (generateFinesForOverdueBooks db d).1 id = some ib →
      ib.status = .issued → ib.due_date < d →
      calculateFineCore id (some ib)
        (generateFinesForOverdueBooks db d).1.fineConfigs d = none := by
    apply sweepLoop_establishes
    intro id ib hfind hst hdue
    left
    obtain ⟨hmem, hid⟩ := findIssuedBook_mem hfind
    exact mem_overdueSelection.mpr ⟨ib, hmem, hid, hst, hdue⟩
  have hnone : ∀ id ∈ overdueSelection (generateFinesForOverdueBooks db d).1 d,
      calculateFine (generateFinesForOverdueBooks db d).1 id d = none := by
    intro id hid
    obtain ⟨ib, hmem, rfl, hst, hdue⟩ := mem_overdueSelection.mp hid
    have hfind := findIssuedBook_nodup hnd1 hmem
    unfold calculateFine
    rw [hfind]
    exact hinv ib.id ib hfind hst hdue
  have hmain : generateFinesForOverdueBooks (generateFinesForOverdueBooks db d).1 d =
      ((generateFinesForOverdueBooks db d).1, []) := sweepLoop_noop hnone
  exact ⟨hmain, by rw [hmain]⟩

/-- Claim C2 (amended): once a loan is in status `overdue`, a later sweep
skips it entirely — the selection only matches status `issued` — so the
loan's row and all of its fine rows (in particular its single pending fine,
with the amount from the sweep that computed it) are left untouched rather
than being kept current to the later evaluation date. -/
theorem sweep_skips_overdue_loan (db : DB) (d : Int) (id : Nat) (ib : IssuedBook)
    (hnd : LoanIdsNodup db) (hfind : findIssuedBook db id = some ib)
    (hst : ib.status = .overdue) :
    findIssuedBook (generateFinesForOverdueBooks db d).1 id = some ib ∧
    finesFor (generateFinesForOverdueBooks db d).1 id = finesFor db id ∧
    pendingFinesFor (generateFinesForOverdueBooks db d).1 id = pendingFinesFor db id := by
  have hnm : id ∉ overdueSelection db d :=
    not_mem_overdueSelection_of_status hnd hfind (by rw [hst]; intro h; cases h)
  unfold generateFinesForOverdueBooks
  refine ⟨?_, ?_, ?_⟩
  · rw [sweepLoop_findIssuedBook_not_mem hnm]
    exact hfind
  · exact sweepLoop_finesFor_not_mem hnm
  · exact sweepLoop_pendingFinesFor_not_mem hnm

/-- Claim C3 (amended): for a loan with status `issued` and `due_date` before
today, the sweep marks it `overdue` exactly when `calculateFine` produced a
fine for it; when the computation yields no fine (for example the loan is
still within the policy's grace period) the loan row is left unchanged, still
in status `issued`. -/
theorem sweep_marks_overdue_iff_fine (db : DB) (today : Int) (id : Nat)
    (ib : IssuedBook) (hnd : LoanIdsNodup db)
    (hfind : findIssuedBook db id = some ib) (hst : ib.status = .issued)
    (hdue : ib.due_date < today) :
    ((calculateFine db id today).isSome = true →
      findIssuedBook (generateFinesForOverdueBooks db today).1 id =
        some { ib with status := .overdue }) ∧
    (calculateFine db id today = none →
      findIssuedBook (generateFinesForOverdueBooks db today).1 id = some ib) := by
  obtain ⟨hmem, hid⟩ := findIssuedBook_mem hfind
  subst hid
  have hsel : ib.id ∈ overdueSelection db today :=
    mem_overdueSelection.mpr ⟨ib, hmem, rfl, hst, hdue⟩
  obtain ⟨l1, l2, hsplit⟩ := List.append_of_mem hsel
  have hndsel : (overdueSelection db today).Nodup := overdueSelection_nodup hnd today
  rw [hsplit] at hndsel
  obtain ⟨h1, h2, hdisj⟩ := List.nodup_append.mp hndsel
  have hnotl2 : ib.id ∉ l2 := (List.nodup_cons.mp h2).1
  have hnotl1 : ib.id ∉ l1 := fun hm => hdisj hm (List.mem_cons_self _ _)
  unfold generateFinesForOverdueBooks
  rw [hsplit, sweepLoop_append]
  dsimp only
  have hfa : findIssuedBook (sweepLoop today db l1).1 ib.id = some ib := by
    rw [sweepLoop_findIssuedBook_not_mem hnotl1]
    exact hfind
  have hcalcA : calculateFine (sweepLoop today db l1).1 ib.id today =
      calculateFine db ib.id today :=
    calculateFine_congr today (by rw [hfa, hfind]) (sweepLoop_fineConfigs today db l1)
  rw [sweepLoop_cons]
  dsimp only
  rw [sweepLoop_findIssuedBook_not_mem hnotl2]
  constructor
  · intro hsome
    obtain ⟨fd, hfd⟩ := Option.isSome_iff_exists.mp hsome
    have hfd' : calculateFine (sweepLoop today db l1).1 ib.id today = some fd := by
      rw [hcalcA]
      exact hfd
    rw [processLoan_findIssuedBook_self hfd', hfa]
    rfl
  · intro hnone
    have hn' : calculateFine (sweepLoop today db l1).1 ib.id today = none := by
      rw [hcalcA]
      exact hnone
    rw [processLoan_of_calc_none hn']
    exact hfa

theorem sweepLoopF_ok {today : Int} {fault : Nat → Bool} {ids : List Nat}
    {db : DB} (h : ∀ id ∈ ids, fault id = false) :
    sweepLoopF today db fault ids = .ok (sweepLoop today db ids) := by
  induction ids generalizing db with
  | nil => rfl
  | cons id rest ih =>
    unfold sweepLoopF
    rw [h id (List.mem_cons_self id rest)]
    simp only [Bool.false_eq_true, if_false]
    rw [ih fun i hi => h i (List.mem_cons_of_mem id hi)]
    rw [sweepLoop_cons]

theorem sweepLoopF_error {today : Int} {fault : Nat → Bool} {ids : List Nat}
    {db : DB} (h : ∃ id ∈ ids, fault id = true) :
    ∃ msg, sweepLoopF today db fault ids = .error msg := by
  induction ids generalizing db with
  | nil =>
    obtain ⟨id, h1, _⟩ := h
    cases h1
  | cons pid rest ih =>
    by_cases hp : fault pid = true
    · refine ⟨"fault processing issued book " ++ toString pid, ?_⟩
      unfold sweepLoopF
      rw [hp]
      rfl
    · rw [Bool.not_eq_true] at hp
      obtain ⟨id, hmem, hf⟩ := h
      have hidrest : id ∈ rest := by
        rcases List.mem_cons.mp hmem with rfl | hr
        · rw [hf] at hp
          cases hp
        · exact hr
      obtain ⟨msg, hmsg⟩ := @ih (processLoan today db pid).1 ⟨id, hidrest, hf⟩
      refine ⟨msg, ?_⟩
      unfold sweepLoopF
      rw [hp]
      simp only [Bool.false_eq_true, if_false]
      rw [hmsg]

/-- Claim C5 (amended): the sweep loop body has no per-loan error isolation.
If no selected loan faults, the faulty sweep agrees with the plain one and
returns its report; but as soon as any selected loan faults, the whole sweep
aborts with that error — the remaining loans are not processed and no report
of the already-processed loans is returned. -/
theorem sweep_fault_characterization (db : DB) (today : Int) (fault : Nat → Bool) :
    ((∀ id ∈ overdueSelection db today, fault id = false) →
      generateFinesForOverdueBooksF db today fault =
        .ok (generateFinesForOverdueBooks db today)) ∧
    ((∃ id ∈ overdueSelection db today, fault id = true) →
      ∃ msg, generateFinesForOverdueBooksF db today fault = .error msg) := by
  constructor
  · intro h
    exact sweepLoopF_ok h
  · intro h
    exact sweepLoopF_error h

/-- Claim C1: for every loan not in status `returned` and every evaluation
date strictly after its due date, `calculateFine` returns exactly what the
specification's step list prescribes: policy resolved as the most recently
created active config (default rate 5/day, grace 0, no cap when none
exists), `daysOverdue = max(0, ceil(days late) - grace)`, no fine when that
is 0, otherwise days, amount capped at `max_fine_amount` when set and
exceeded, and a snapshot of the rate. -/
theorem calculateFine_matches_spec (db : DB) (id : Nat) (today : Int)
    (ib : IssuedBook) (hfind : findIssuedBook db id = some ib)
    (hst : ib.status ≠ .returned) (hdue : ib.due_date < today) :
    calculateFine db id today = calculateFineSpec id ib db.fineConfigs today := by
  unfold calculateFine calculateFineSpec calculateFineCore
  rw [hfind]
  dsimp only
  rw [if_neg hst, if_neg (not_le.mpr hdue)]
  cases hc : resolveConfig db.fineConfigs with
  | none => simp [policyRate, policyGrace, applyCap]
  | some c =>
    cases hm : c.max_fine_amount with
    | none => simp [policyRate, policyGrace, applyCap, hm]
    | some m => simp [policyRate, policyGrace, applyCap, hm]

/-- Claim C1 witness: on a concrete store with two active policies, the
computation and the specification's formula agree. -/
theorem calculateFine_matches_spec_witness :
    calculateFine exDBC1 1 (day 13) =
      calculateFineSpec 1 (mkLoan 1 (day 10) .issued) exDBC1.fineConfigs (day 13) :=
  calculateFine_matches_spec exDBC1 1 (day 13) (mkLoan 1 (day 10) .issued)
    (by decide) (by decide) (by decide)

/-- Claim C9: with an effective grace period of 0 days, evaluating a loan's
fine exactly on its due date yields no fine, and evaluating it one day after
the due date yields a fine with `days_overdue = 1`. -/
theorem fine_boundary_due_date (db : DB) (id : Nat) (ib : IssuedBook)
    (hfind : findIssuedBook db id = some ib)
    (hgrace : policyGrace (resolveConfig db.fineConfigs) = 0) :
    calculateFine db id ib.due_date = none ∧
    (ib.status ≠ .returned →
      ∃ fd, calculateFine db id (ib.due_date + msPerDay) = some fd ∧
        fd.days_overdue = 1) := by
  constructor
  · unfold calculateFine calculateFineCore
    rw [hfind]
    dsimp only
    split
    · rfl
    · rw [if_pos (le_refl _)]
  · intro hst
    have hpos : (0 : Int) < msPerDay := by decide
    have hone : ceilDiv (ib.due_date + msPerDay - ib.due_date) msPerDay -
        policyGrace (resolveConfig db.fineConfigs) = 1 := by
      rw [hgrace, add_sub_cancel_left, sub_zero]
      decide
    unfold calculateFine calculateFineCore
    rw [hfind]
    dsimp only
    rw [if_neg hst, if_neg (not_le.mpr (lt_add_of_pos_right _ hpos))]
    rw [hone]
    norm_num

/-- Claim C9 witness: concrete check on a loan due at day 10 with no policy
rows (grace defaults to 0). -/
theorem fine_boundary_due_date_witness :
    calculateFine exDBC9 1 (mkLoan 1 (day 10) .issued).due_date = none ∧
    ∃ fd, calculateFine exDBC9 1 ((mkLoan 1 (day 10) .issued).due_date + msPerDay) =
        some fd ∧ fd.days_overdue = 1 := by
  have h := fine_boundary_due_date exDBC9 1 (mkLoan 1 (day 10) .issued)
    (by decide) (by decide)
  exact ⟨h.1, h.2 (by decide)⟩

theorem mem_insertFineByCreated {f g : Fine} {l : List Fine} :
    f ∈ insertFineByCreated g l ↔ f = g ∨ f ∈ l := by
  induction l with
  | nil => simp [insertFineByCreated]
  | cons a as ih =>
    unfold insertFineByCreated
    by_cases h : a.created_at < g.created_at
    · simp [h]
    · simp only [h, if_false, List.mem_cons, ih]
      tauto

theorem mem_sortFinesByCreatedDesc {f : Fine} {l : List Fine} :
    f ∈ sortFinesByCreatedDesc l ↔ f ∈ l := by
  induction l with
  | nil => simp [sortFinesByCreatedDesc]
  | cons a as ih =>
    simp [sortFinesByCreatedDesc, mem_insertFineByCreated, ih]

/-- Claim C10: `getStudentFines(studentId)` called without a status argument
defaults the status filter to `pending`, so the
`GET /api/fines/student/:studentId` route without a `status` query returns
exactly the student's pending fines — paid and waived fines are omitted. -/
theorem getStudentFines_default_pending (db : DB) (sid : Nat) (f : Fine) :
    f ∈ getStudentFinesRoute db sid none ↔
      f ∈ db.fines ∧ f.student_id = sid ∧ f.status = .pending := by
  unfold getStudentFinesRoute getStudentFines
  dsimp only
  rw [mem_sortFinesByCreatedDesc]
  simp [List.mem_filter, and_assoc]

/-- Claim C6 (amended): `payFine` and `waiveFine` do protect paid fines —
on a fine whose status is `paid` both operations fail with their respective
errors and return no updated store.  (Waived fines are not protected:
`payFine` turns a waived fine into a paid one, and the return route's fine
upsert rewrites the loan's fine row regardless of its status; see the
counterexample.) -/
theorem paid_fine_immutable (db : DB) (fid : Nat) (d : Int) (notes : String)
    (f : Fine) (hfind : findFine db fid = some f) (hst : f.status = .paid) :
    payFine db fid d = .error "Fine already paid" ∧
    waiveFine db fid notes = .error "Cannot waive paid fine" := by
  unfold payFine waiveFine
  rw [hfind]
  dsimp only
  rw [if_pos hst, if_pos hst]
  exact ⟨rfl, rfl⟩

/-- Claim C6 witness: concrete paid fine rejected by both operations. -/
theorem paid_fine_immutable_witness :
    payFine exDBC6P 1 (day 9) = .error "Fine already paid" ∧
    waiveFine exDBC6P 1 "n" = .error "Cannot waive paid fine" := by
  have h := paid_fine_immutable exDBC6P 1 (day 9) "n" exPaidFine (by decide) rfl
  exact ⟨h.1, h.2⟩

/-- Claim C6 counterexample: a waived fine is not terminal — `payFine` on a
fine in status `waived` succeeds and flips it to `paid`, so an operation does
change a waived fine's status. -/
theorem payFine_waived_fine_cex :
    exWaivedFine.status = .waived ∧
    (payFine exDBC6 1 (day 3)).toOption.map
        (fun db => (findFine db 1).map (·.status)) = some (some .paid) := by
  decide

theorem returnFineUpsert_issuedBooks (db : DB) (id : Nat) (fd : FineData)
    (t : Int) : ((returnFineUpsert db id fd t).1).issuedBooks = db.issuedBooks := by
  unfold returnFineUpsert
  cases db.fines.find? (fun f => decide (f.issued_book_id = id)) <;> rfl

theorem returnFineUpsert_books (db : DB) (id : Nat) (fd : FineData)
    (t : Int) : ((returnFineUpsert db id fd t).1).books = db.books := by
  unfold returnFineUpsert
  cases db.fines.find? (fun f => decide (f.issued_book_id = id)) <;> rfl

theorem return_update_effects (db db1 db2 : DB) (loanId : Nat) (ib : IssuedBook)
    (ret : Int) (amt : Rat) (notes : Option String)
    (hIB : db1.issuedBooks = db.issuedBooks)
    (hfind : findIssuedBook db loanId = some ib)
    (hdb2 : db2 = incrementAvailable
      { db1 with
        issuedBooks :=
          updateFirst (fun b => decide (b.id = loanId))
            (fun b =>
              { b with
                return_date := some ret
                status := .returned
                fine_amount := amt
                notes := jsOrString notes b.notes }) db1.issuedBooks }
      ib.book_id) :
    (findIssuedBook db2 loanId).map (·.status) = some .returned ∧
    (findIssuedBook db2 loanId).map (·.return_date) = some (some ret) ∧
    db2.books = db1.books.map (fun b =>
      if b.id = ib.book_id then
        { b with available_copies := b.available_copies + 1 } else b) ∧
    db2.fines = db1.fines := by
  subst hdb2
  have hfind2 : findIssuedBook
      (incrementAvailable
        { db1 with
          issuedBooks :=
            updateFirst (fun b => decide (b.id = loanId))
              (fun b =>
                { b with
                  return_date := some ret
                  status := .returned
                  fine_amount := amt
                  notes := jsOrString notes b.notes }) db1.issuedBooks }
        ib.book_id) loanId =
      some { ib with
        return_date := some ret
        status := .returned
        fine_amount := amt
        notes := jsOrString notes ib.notes } := by
    unfold findIssuedBook incrementAvailable
    dsimp only
    rw [hIB]
    rw [find?_updateFirst_same (fun b => decide (b.id = loanId))
      (fun b =>
        { b with
          return_date := some ret
          status := .returned
          fine_amount := amt
          notes := jsOrString notes b.notes }) (fun a ha => ha) db.issuedBooks]
    unfold findIssuedBook at hfind
    rw [hfind]
    rfl
  refine ⟨?_, ?_, ?_, ?_⟩
  · rw [hfind2]
    rfl
  · rw [hfind2]
    rfl
  · rfl
  · rfl

/-- Claim C7 (amended): `Return(loanId, returnDate)` on a loan not in status
`returned` sets the loan's status to `returned` and its `return_date` to
`returnDate` (defaulting to now), increments the book's available copies,
and — whenever `returnDate > due_date` — computes the fine via the Fine
Engine, which evaluates at the current date `today` (not at `returnDate`;
the two coincide when the return is processed on the return date itself),
upserting the result into the loan's fine row. -/
theorem returnBook_effects (db : DB) (loanId : Nat) (rd : Option Int)
    (notes : Option String) (today : Int) (ib : IssuedBook)
    (hfind : findIssuedBook db loanId = some ib) (hst : ib.status ≠ .returned) :
    ∃ db2, returnBook db loanId rd notes today = .ok db2 ∧
      (findIssuedBook db2 loanId).map (·.status) = some .returned ∧
      (findIssuedBook db2 loanId).map (·.return_date) = some (some (rd.getD today)) ∧
      db2.books = db.books.map (fun b =>
        if b.id = ib.book_id then
          { b with available_copies := b.available_copies + 1 } else b) ∧
      db2.fines = (if ib.due_date < rd.getD today then
          match calculateFine db loanId today with
          | some fd => (returnFineUpsert db loanId fd today).1.fines
          | none => db.fines
        else db.fines) := by
  unfold returnBook
  rw [hfind]
  dsimp only
  rw [if_neg hst]
  by_cases hret : ib.due_date < rd.getD today
  · rw [if_pos hret]
    cases hc : calculateFine db loanId today with
    | some fd =>
      refine ⟨_, rfl, ?_⟩
      have h := return_update_effects db (returnFineUpsert db loanId fd today).1 _
        loanId ib (rd.getD today) (returnFineUpsert db loanId fd today).2 notes
        (returnFineUpsert_issuedBooks db loanId fd today) hfind rfl
      refine ⟨h.1, h.2.1, ?_, ?_⟩
      · rw [h.2.2.1, returnFineUpsert_books]
      · rw [h.2.2.2]
        rw [if_pos hret]
    | none =>
      refine ⟨_, rfl, ?_⟩
      have h := return_update_effects db db _ loanId ib (rd.getD today) 0 notes
        rfl hfind rfl
      refine ⟨h.1, h.2.1, h.2.2.1, ?_⟩
      rw [h.2.2.2]
      rw [if_pos hret]
  · rw [if_neg hret]
    refine ⟨_, rfl, ?_⟩
    have h := return_update_effects db db _ loanId ib (rd.getD today) 0 notes
      rfl hfind rfl
    refine ⟨h.1, h.2.1, h.2.2.1, ?_⟩
    rw [h.2.2.2]
    rw [if_neg hret]

/-- Claim C7 counterexample: the claim predicts the fine is evaluated at the
supplied `returnDate` (here 2024-01-15, five days past due, amount 25 under
the default rate 5/day), but the code evaluates `calculateFine` at the
current date.  Processing the same request on 2024-01-20 records ten days
overdue and amount 50, not five days and 25. -/
theorem returnBook_eval_date_cex :
    (mkLoan 1 (day 19732) .issued).due_date < day 19737 ∧
    (returnBook exDBC7 1 (some (day 19737)) none (day 19742)).toOption.map
        (fun db => db.fines.map fun f => (f.amount, f.days_overdue)) =
      some [((50 : Rat), (10 : Int))] ∧
    ¬ ((50 : Rat) = 25 ∧ (10 : Int) = 5) := by
  decide

/-- Claim C7 witness: the spec's scenario processed on the return date
itself — due 2024-01-10, returned 2024-01-15, default policy — yields a
pending fine of 5 days and amount 25, marks the loan returned, and
increments the book's available copies. -/
theorem returnBook_effects_witness :
    calculateFine exDBC7 1 (day 19737) =
      some { issued_book_id := 1, student_id := 42, amount := 25,
             days_overdue := 5, fine_rate_per_day := 5 } ∧
    ∃ db2, returnBook exDBC7 1 (some (day 19737)) none (day 19737) = .ok db2 ∧
      (findIssuedBook db2 1).map (·.status) = some .returned ∧
      (findIssuedBook db2 1).map (·.return_date) =
        some (some ((some (day 19737)).getD (day 19737))) ∧
      db2.books = exDBC7.books.map (fun b =>
        if b.id = (mkLoan 1 (day 19732) .issued).book_id then
          { b with available_copies := b.available_copies + 1 } else b) ∧
      db2.fines = (if (mkLoan 1 (day 19732) .issued).due_date <
            (some (day 19737)).getD (day 19737) then
          match calculateFine exDBC7 1 (day 19737) with
          | some fd => (returnFineUpsert exDBC7 1 fd (day 19737)).1.fines
          | none => exDBC7.fines
        else exDBC7.fines) :=
  ⟨by decide,
    returnBook_effects exDBC7 1 (some (day 19737)) none (day 19737)
      (mkLoan 1 (day 19732) .issued) (by decide) (by decide)⟩

/-- Claim C8 (amended): under passing student/book/availability checks,
`Issue` fails with `DuplicateLoan` exactly when the student already has a
loan for that book in status `issued`.  Loans in status `overdue` (also
active in the spec's sense) do not trigger the duplicate check, so a second
active loan for the same (student, book) pair can be created; see the
counterexample. -/
theorem issueBook_duplicate_check (db : DB) (s b : Nat) (dd : Int) (lib : Nat)
    (notes : Option String) (today : Int) (st : Student) (bk : Book)
    (hs : findStudentActive db s = some st) (hb : findBookActive db b = some bk)
    (hav : 0 < bk.available_copies) :
    issueBook db s b dd lib notes today = .error .duplicateLoan ↔
      ∃ l ∈ db.issuedBooks, l.student_id = s ∧ l.book_id = b ∧
        l.status = .issued := by
  unfold issueBook
  rw [hs, hb]
  dsimp only
  rw [if_neg (not_le.mpr hav)]
  cases hfind : db.issuedBooks.find? (fun ib =>
      decide (ib.student_id = s ∧ ib.book_id = b ∧ ib.status = .issued)) with
  | some l =>
    simp only [hfind, Option.isSome_some, if_true]
    constructor
    · intro _
      have hp := List.find?_some hfind
      rw [decide_eq_true_eq] at hp
      exact ⟨l, List.mem_of_find?_eq_some hfind, hp.1, hp.2.1, hp.2.2⟩
    · intro _
      trivial
  | none =>
    simp only [hfind, Option.isSome_none, Bool.false_eq_true, if_false]
    constructor
    · intro h
      split at h <;> simp at h
    · rintro ⟨l, hmem, h1, h2, h3⟩
      have := List.find?_eq_none.mp hfind l hmem
      simp only [decide_eq_true_eq] at this
      exact absurd ⟨h1, h2, h3⟩ this

/-- Claim C8 witness: with the existing pair-loan in status `issued`, the
re-issue is rejected as a duplicate. -/
theorem issueBook_duplicate_check_witness :
    issueBook exDBC8W 42 7 (day 30) 1 none (day 3) = .error .duplicateLoan :=
  (issueBook_duplicate_check exDBC8W 42 7 (day 30) 1 none (day 3)
      exStudent exBook (by decide) (by decide) (by decide)).mpr
    ⟨mkLoan 1 (day 0) .issued, by decide, by decide, by decide, by decide⟩

/-- Claim C8 counterexample: the duplicate check filters on status `issued`
only.  Student 42 already holds loan 1 on book 7 in status `overdue` (an
active, non-returned loan), yet `Issue` succeeds and leaves two active loans
for the same (student, book) pair. -/
theorem issueBook_overdue_duplicate_cex :
    ((mkLoan 1 (day 0) .overdue) ∈ exDBC8.issuedBooks ∧
      (mkLoan 1 (day 0) .overdue).status ≠ .returned) ∧
    (issueBook exDBC8 42 7 (day 30) 1 none (day 3)).toOption.map
        (fun db => (db.issuedBooks.filter fun ib =>
          decide (ib.student_id = 42 ∧ ib.book_id = 7 ∧
            ib.status ≠ .returned)).length) = some 2 := by
  decide

/-- Claim C2 counterexample: loan 1 falls due at day 0; the sweep at day 1
creates its pending fine (1 day, amount 5).  The sweep at day 2 leaves the
fine at amount 5, although `calculateFine` at day 2 yields amount 10 — the
pending fine does not track the latest evaluation date. -/
theorem sweep_not_kept_current_cex :
    (pendingFinesFor
        (generateFinesForOverdueBooks
          (generateFinesForOverdueBooks exDBC2 (day 1)).1 (day 2)).1 1).map
        (·.amount) = [(5 : Rat)] ∧
    (calculateFine
        (generateFinesForOverdueBooks
          (generateFinesForOverdueBooks exDBC2 (day 1)).1 (day 2)).1 1
        (day 2)).map (·.amount) = some (10 : Rat) ∧
    ¬ ((5 : Rat) = 10) := by
  decide

/-- Claim C2 (amended) witness: a loan already in status `overdue` is left
untouched by a sweep. -/
theorem sweep_skips_overdue_loan_witness :
    findIssuedBook (generateFinesForOverdueBooks exDBC8 (day 5)).1 1 =
      some (mkLoan 1 (day 0) .overdue) ∧
    finesFor (generateFinesForOverdueBooks exDBC8 (day 5)).1 1 =
      finesFor exDBC8 1 ∧
    pendingFinesFor (generateFinesForOverdueBooks exDBC8 (day 5)).1 1 =
      pendingFinesFor exDBC8 1 :=
  sweep_skips_overdue_loan exDBC8 (day 5) 1 (mkLoan 1 (day 0) .overdue)
    (by decide) (by decide) (by decide)

/-- Claim C3 counterexample: under the 3-day-grace policy, loan 1 (due day 0,
status `issued`, selected by the day-2 sweep since its due date has passed)
computes no fine and is left in status `issued`, not `overdue`. -/
theorem sweep_grace_loan_not_marked_cex :
    ((mkLoan 1 (day 0) .issued).status = .issued ∧
      (mkLoan 1 (day 0) .issued).due_date < day 2) ∧
    (findIssuedBook (generateFinesForOverdueBooks exDBC3 (day 2)).1 1).map
        (·.status) = some .issued ∧
    LoanStatus.issued ≠ LoanStatus.overdue := by
  decide

/-- Claim C3 (amended) witness: the same store swept at day 10 (past the
grace period) computes a fine and does mark the loan `overdue`. -/
theorem sweep_marks_overdue_iff_fine_witness :
    ((calculateFine exDBC3 1 (day 10)).isSome = true →
      findIssuedBook (generateFinesForOverdueBooks exDBC3 (day 10)).1 1 =
        some { mkLoan 1 (day 0) .issued with status := .overdue }) ∧
    (calculateFine exDBC3 1 (day 10) = none →
      findIssuedBook (generateFinesForOverdueBooks exDBC3 (day 10)).1 1 =
        some (mkLoan 1 (day 0) .issued)) :=
  sweep_marks_overdue_iff_fine exDBC3 (day 10) 1 (mkLoan 1 (day 0) .issued)
    (by decide) (by decide) (by decide) (by decide)

/-- Claim C4 witness: concrete double sweep on the one-overdue-loan store. -/
theorem sweep_idempotent_witness :
    generateFinesForOverdueBooks (generateFinesForOverdueBooks exDBC2 (day 1)).1 (day 1) =
      ((generateFinesForOverdueBooks exDBC2 (day 1)).1, []) ∧
    totalFineAmount
        (generateFinesForOverdueBooks
          (generateFinesForOverdueBooks exDBC2 (day 1)).1 (day 1)).1 =
      totalFineAmount (generateFinesForOverdueBooks exDBC2 (day 1)).1 :=
  sweep_idempotent exDBC2 (day 1) (by decide)

/-- Claim C5 counterexample: loans 1 and 2 are both overdue and selected; a
fault on loan 1 aborts the whole sweep — the run returns an error, no
report, and loan 2 (not faulty) is never processed. -/
theorem sweep_fault_aborts_cex :
    (generateFinesForOverdueBooksF exDBC5 (day 1) exFaultC5).isOk = false ∧
    exFaultC5 2 = false ∧
    overdueSelection exDBC5 (day 1) = [1, 2] := by
  decide

/-- Claim C5 (amended) witness: the faulty run on the concrete store indeed
aborts with an error. -/
theorem sweep_fault_characterization_witness :
    ∃ msg, generateFinesForOverdueBooksF exDBC5 (day 1) exFaultC5 = .error msg :=
  (sweep_fault_characterization exDBC5 (day 1) exFaultC5).2 ⟨1, by decide, by decide⟩

/-- Claim C10 witness: concrete instance — the waived fine of student 42 is
not in the route's default response. -/
theorem getStudentFines_default_pending_witness :
    exWaivedFine ∈ getStudentFinesRoute exDBC6 42 none ↔
      exWaivedFine ∈ exDBC6.fines ∧ exWaivedFine.student_id = 42 ∧
        exWaivedFine.status = .pending :=
  getStudentFines_default_pending exDBC6 42 exWaivedFine

end LibraryMS
